import Mathlib

/-
Verification of the natural-language specification of `hjs-file`
(src/lib/file.js) against a shallow embedding of the source.

The embedding translates the relevant methods of `File` and
`FileInputStream` into pure Lean functions.  Native filesystem calls
(`mkdirSync`, `accessSync`, `readdirSync`, `unlinkSync`, `rmdirSync`,
`statSync`, `closeSync`) are modelled over an explicit finite
filesystem: a list of (path, entity-kind) entries, where a path is its
list of segments (the `path` string library — join/normalize/resolve —
is an external collaborator per the spec, so paths are modelled
directly as segment lists and `splitPaths` as the list of nonempty
ancestor chains).  Native `mkdir` is modelled as failing exactly when
the target already exists (EEXIST), the failure mode the claims
exercise.  The process-wide last-error slot `EX` is threaded
explicitly; callback invocations of an asynchronous run are collected
in order into a list, so that "the callback fires exactly once with
(code, cause)" is the statement that this list is a singleton.
-/

set_option autoImplicit false

namespace Hjs

/-- Status sentinel `SUCCESS = 0x1` from the source. -/
def SUCCESS : Nat := 0x1

/-- Status sentinel `ERROR = 0x0` from the source. -/
def ERROR : Nat := 0x0

/-- Entity-kind sentinel `FILE = 0x3` from the source. -/
def FILE : Nat := 0x3

/-- Entity-kind sentinel `DIR = 0x4` from the source. -/
def DIR : Nat := 0x4

/-- Failure causes: native errno-style errors and the JavaScript
error objects (`ReferenceError`, `TypeError`, `RangeError`) the source
constructs. -/
inductive JsError where
  | eexist (p : List String)
  | enoent (p : List String)
  | enotdir (p : List String)
  | enotempty (p : List String)
  | eisdir (p : List String)
  | referenceError (msg : String)
  | typeError (msg : String)
  | rangeError (msg : String)
deriving Repr, DecidableEq

/-- Kind of a filesystem entity, as revealed by `stats.isFile()` /
`stats.isDirectory()`. -/
inductive Entity where
  | file
  | dir
deriving Repr, DecidableEq

/-- A filesystem is a finite list of (path, kind) entries; a path is
its list of segments. -/
abbrev FS := List (List String × Entity)

/-- Kind of the entity at `p`, if present. -/
def lookupFS (fs : FS) (p : List String) : Option Entity :=
  (fs.find? (fun e => e.1 == p)).map (·.2)

/-- Existence test used to model `accessSync` succeeding. -/
def existsFS (fs : FS) (p : List String) : Bool :=
  (lookupFS fs p).isSome

/-- Model of native `accessSync`: succeeds iff the path exists. -/
def accessSyncFS (fs : FS) (p : List String) : Except JsError Unit :=
  if existsFS fs p then .ok () else .error (.enoent p)

/-- Model of native `mkdirSync`: fails with EEXIST iff the target
already exists, otherwise adds it as a directory. -/
def mkdirSyncFS (fs : FS) (p : List String) : Except JsError FS :=
  if existsFS fs p then .error (.eexist p) else .ok ((p, .dir) :: fs)

/-- Remove the entry at `p` (used to model `unlinkSync`/`rmdirSync`). -/
def removeFS (fs : FS) (p : List String) : FS :=
  fs.filter (fun e => !(e.1 == p))

/-- Names of the immediate children of directory `d`. -/
def childrenNames (fs : FS) (d : List String) : List String :=
  fs.filterMap (fun e =>
    if e.1.length = d.length + 1 ∧ e.1.take d.length = d then
      (e.1.drop d.length).head?
    else none)

/-- Model of native `readdirSync`. -/
def readdirSyncFS (fs : FS) (d : List String) : Except JsError (List String) :=
  match lookupFS fs d with
  | some .dir => .ok (childrenNames fs d)
  | some .file => .error (.enotdir d)
  | none => .error (.enoent d)

/-- Model of native `unlinkSync`. -/
def unlinkSyncFS (fs : FS) (p : List String) : Except JsError FS :=
  match lookupFS fs p with
  | some .file => .ok (removeFS fs p)
  | some .dir => .error (.eisdir p)
  | none => .error (.enoent p)

/-- Model of native `rmdirSync`: only removes an empty directory. -/
def rmdirSyncFS (fs : FS) (p : List String) : Except JsError FS :=
  match lookupFS fs p with
  | some .dir =>
    if childrenNames fs p = [] then .ok (removeFS fs p)
    else .error (.enotempty p)
  | some .file => .error (.enotdir p)
  | none => .error (.enoent p)

/-- Model of native `statSync`: the entity kind, or ENOENT. -/
def statSyncFS (fs : FS) (p : List String) : Except JsError Entity :=
  match lookupFS fs p with
  | some t => .ok t
  | none => .error (.enoent p)

end Hjs

namespace Hjs

/-- State of a `FileInputStream`: `buf` is the byte buffer (`none`
models the JavaScript `null`), together with the cursors `pos`,
`count`, `markPos` of the source. -/
structure FileInputStream where
  buf : Option (List Nat)
  pos : Nat
  count : Nat
  markPos : Nat
deriving Repr, DecidableEq

namespace FileInputStream

/-- Source `available()`: `this.count - this.pos` in JavaScript number
arithmetic (may be negative when the `pos ≤ count` invariant is
broken, hence `Int`). -/
def available (s : FileInputStream) : Int :=
  (s.count : Int) - (s.pos : Int)

/-- Source `mark(readAheadLimit)`: records the current position. -/
def mark (s : FileInputStream) : FileInputStream :=
  { s with markPos := s.pos }

/-- Source `reset()`: rewinds the position to the last mark. -/
def reset (s : FileInputStream) : FileInputStream :=
  { s with pos := s.markPos }

/-- Source `skip(n)`: clamps `n` to `count - pos` when it would
overshoot, returns 0 (moving nothing) when the remaining amount is
negative, otherwise advances `pos` and returns the amount skipped. -/
def skip (s : FileInputStream) (n : Int) : Int × FileInputStream :=
  let n' := if (s.pos : Int) + n > (s.count : Int)
            then (s.count : Int) - (s.pos : Int) else n
  if n' < 0 then (0, s)
  else (n', { s with pos := s.pos + n'.toNat })

/-- Source `read()` in single-byte mode (`b = null`): `ensureOpen`
throws "Stream closed" when `buf` is null; otherwise returns
`buf[pos++] & 0xff`, or `-1` at end of data. -/
def read1 (s : FileInputStream) : Except JsError (Int × FileInputStream) :=
  match s.buf with
  | none => .error (.referenceError "Stream closed")
  | some buf =>
    if s.pos < s.count then
      .ok (((buf.getD s.pos 0) % 256 : Nat), { s with pos := s.pos + 1 })
    else
      .ok (-1, s)

/-- Source `read(b, off, len)` in buffered-copy mode: after
`ensureOpen`, `len = len || b.length`, the off/len pair is
bounds-checked against the destination capacity `bLen`
(RangeError "IndexOutOfBoundsException"), `-1` is returned when
`pos ≥ count`, the length is clamped to the remaining bytes, `0` is
returned when the clamped length is zero, and otherwise the bytes
`buf[pos .. pos+len)` are copied out and `pos` advances.  The result
carries the return value, the new state, and the copied bytes. -/
def readArr (s : FileInputStream) (bLen off lenArg : Nat) :
    Except JsError (Int × FileInputStream × List Nat) :=
  match s.buf with
  | none => .error (.referenceError "Stream closed")
  | some buf =>
    let len := if lenArg = 0 then bLen else lenArg
    if (len : Int) > (bLen : Int) - (off : Int) then
      .error (.rangeError "IndexOutOfBoundsException")
    else if s.count ≤ s.pos then
      .ok (-1, s, [])
    else
      let len2 := if s.count < s.pos + len then s.count - s.pos else len
      if len2 = 0 then .ok (0, s, [])
      else .ok ((len2 : Int), { s with pos := s.pos + len2 },
                (buf.drop s.pos).take len2)

/-- Source `open({offset, length, blocking: true, ...})` composed with
the constructor state (`pos = count = markPos = 0`): the file's `size`
is its byte count, the buffer is allocated with capacity `size` and
filled from the single readable chunk (the whole file, per the
documented blocking-strategy limitation), and then the window is set:
`pos = offset`, `count = min(offset + length, size)` when both
`offset > 0` and `length > 0` were requested, else `pos = 0`,
`count = size`. -/
def openBlocking (bytes : List Nat) (offset length : Nat) : FileInputStream :=
  let size := bytes.length
  if 0 < offset ∧ 0 < length then
    { buf := some bytes, pos := offset, count := min (offset + length) size,
      markPos := 0 }
  else
    { buf := some bytes, pos := 0, count := size, markPos := 0 }

/-- Source `close()` stream-state effect: `buf = null` and
`pos = count = markPos = 0` (the delegated `this.file.close()` acts on
the owning handle, modelled separately). -/
def close (_s : FileInputStream) : FileInputStream :=
  { buf := none, pos := 0, count := 0, markPos := 0 }

/-- Invariant of the stream claimed by the spec, extended with the
mark cursor: both cursors stay within the valid data, which stays
within the buffer. -/
def inv (s : FileInputStream) : Prop :=
  s.pos ≤ s.count ∧ s.markPos ≤ s.count ∧
    ∀ b, s.buf = some b → s.count ≤ b.length

end FileInputStream

/-- Byte contents of the 5-byte file "hello". -/
def helloBytes : List Nat := [104, 101, 108, 108, 111]

/-- A File handle: the stored path string, the tracked descriptor
(`fd = 0` is the "unopened" sentinel), the watch subscription
(`none` models the JavaScript `null`), and the delete-on-unwatch
policy flag. -/
structure File where
  path : String
  fd : Nat
  watcher : Option Nat
  onUnwatchDelete : Bool
deriving Repr, DecidableEq

/-- The `parent` argument of `File.setup`: `null`, another `File`
handle, or a path string. -/
inductive ParentArg where
  | null
  | file (f : File)
  | str (s : String)
deriving Repr

namespace File

/-- Source `isOpen()`: `this.fd !== 0`. -/
def isOpen (h : File) : Bool := h.fd != 0

/-- Source `isWatched()`: `this.watcher !== null`. -/
def isWatched (h : File) : Bool := h.watcher.isSome

/-- Source `setup({path, parent, onUnwatchDelete})`.  The external
`path` library's `normalize` and two-argument `resolve` are taken as
parameters (they are out-of-scope collaborators per the spec).  A
`null` path throws `NullPointerException`; with `parent === ''` the
source evaluates `process.pwd()`, which is not a function in Node
(`process.cwd` is), so that branch throws a TypeError. -/
def setup (normalize : String → String) (resolveP : String → String → String)
    (path : Option String) (parent : ParentArg) (onUnwatchDelete : Bool) :
    Except JsError File :=
  match path with
  | none => .error (.referenceError "NullPointerException")
  | some p =>
    match parent with
    | .null => .ok ⟨normalize p, 0, none, onUnwatchDelete⟩
    | .file f => .ok ⟨resolveP f.path (normalize p), 0, none, onUnwatchDelete⟩
    | .str s =>
      if s = "" then .error (.typeError "process.pwd is not a function")
      else .ok ⟨resolveP (normalize s) (normalize p), 0, none, onUnwatchDelete⟩

/-- Source static `closeFd` in the synchronous branch with no
callback: native `closeSync` is modelled by `native fd = none` for
success and `some e` for the caught exception, which `handleError`
records into the `EX` slot. -/
def closeFd_sync (native : Nat → Option JsError) (fd : Nat)
    (ex : Option JsError) : Nat × Option JsError :=
  match native fd with
  | none => (SUCCESS, ex)
  | some e => (ERROR, some e)

/-- Source `close()` with no callback: if `isOpen()`, run `closeFd`
synchronously, clear `fd` to 0, and return its code unless it failed,
in which case `EX = EX || new ReferenceError('FileExistException')`
and `ERROR`; if not open, `EX = new
ReferenceError('FileNotOpenedException')` and `ERROR`.  Result:
(return code, handle after, EX slot after). -/
def close_sync (native : Nat → Option JsError) (h : File)
    (ex : Option JsError) : Nat × File × Option JsError :=
  if h.fd ≠ 0 then
    let r := closeFd_sync native h.fd ex
    let h' := { h with fd := 0 }
    if r.1 ≠ ERROR then (r.1, h', r.2)
    else (ERROR, h', some ((r.2).getD (.referenceError "FileExistException")))
  else (ERROR, h, some (.referenceError "FileNotOpenedException"))

/-- Source `close(onClose)` with a callback: if not open, the callback
fires with `(ERROR, FileNotOpenedException)`.  If open, `closeFd` runs
asynchronously; on native success the wrapper clears `fd` and fires
the callback with `(SUCCESS, null)`; on native failure the source
calls `handleError(err)` without the callback, so the callback list
stays empty, `fd` is not cleared, and `EX` receives the error.
Result: (handle after, callback invocations in order, EX after). -/
def close_async (native : Nat → Option JsError) (h : File)
    (ex : Option JsError) :
    File × List (Nat × Option JsError) × Option JsError :=
  if h.fd ≠ 0 then
    match native h.fd with
    | none => ({ h with fd := 0 }, [(SUCCESS, none)], ex)
    | some e => (h, [], some e)
  else (h, [(ERROR, some (.referenceError "FileNotOpenedException"))], ex)

end File

end Hjs

namespace Hjs

/-- Source static `splitPaths(path)`: the ordered ancestor chain — for
a path of `n` segments, the `n` chains of its first `1, …, n`
segments. -/
def splitPaths (path : List String) : List (List String) :=
  (List.range path.length).map (fun i => path.take (i + 1))

namespace File

/-- Source static `mkdirs` in the synchronous branch, inner loop over
the ancestor `queue`: every ancestor except the last is created only
when `accessSync` fails on it; the last is created unconditionally; a
`mkdirSync` exception aborts the walk (already-created ancestors
remain).  Result: (filesystem after, error if any). -/
def mkdirsSyncSteps (fs : FS) : List (List String) → FS × Option JsError
  | [] => (fs, none)
  | [leaf] =>
    match mkdirSyncFS fs leaf with
    | .ok fs' => (fs', none)
    | .error e => (fs, some e)
  | p :: rest =>
    match accessSyncFS fs p with
    | .ok _ => mkdirsSyncSteps fs rest
    | .error _ =>
      match mkdirSyncFS fs p with
      | .ok fs' => mkdirsSyncSteps fs' rest
      | .error e => (fs, some e)

/-- Source static `mkdirs({src, sync: true})` with no callback:
`queue = splitPaths(src)`; when the queue has fewer than two entries a
single plain `mkdirSync(queue[0])` runs, otherwise the loop above;
a caught exception yields code `ERROR` with the cause in the `EX`
slot.  Result: (code, filesystem after, EX delta). -/
def mkdirs_sync (fs : FS) (src : List String) : Nat × FS × Option JsError :=
  let queue := splitPaths src
  if queue.length < 2 then
    match mkdirSyncFS fs (queue.headD []) with
    | .ok fs' => (SUCCESS, fs', none)
    | .error e => (ERROR, fs, some e)
  else
    match mkdirsSyncSteps fs queue with
    | (fs', none) => (SUCCESS, fs', none)
    | (fs', some e) => (ERROR, fs', some e)

/-- Observable outcome of one asynchronous run: the invocations of the
caller-supplied completion callback in order, the process-wide `EX`
slot after the run, and the filesystem after the run. -/
structure AsyncRun where
  calls : List (Nat × Option JsError)
  ex : Option JsError
  fs : FS
deriving Repr, DecidableEq

/-- Source static `mkdir({src, onCreate})` in the asynchronous branch:
native `mkdir` (same success condition as `mkdirSync`) reports back;
on success `handleSuccess(null, onCreate)` fires the callback once
with `(SUCCESS, null)`; on failure the source calls
`handleError(err)` without `onCreate`, so no callback fires and `EX`
receives the error. -/
def mkdir_async (fs : FS) (src : List String) : AsyncRun :=
  match mkdirSyncFS fs src with
  | .ok fs' => ⟨[(SUCCESS, none)], none, fs'⟩
  | .error e => ⟨[], some e, fs⟩

/-- Source static `mkdirs({src, onCreate})` asynchronous `next()`
chain: each ancestor waits for the previous step; a failing native
`mkdir` at any step calls `handleError(err)` without `onCreate`
(callback dropped, `EX` set); draining the queue calls
`handleSuccess(null, onCreate)` — one `(SUCCESS, null)` invocation
(after the leaf is created the source calls `next()` on the drained
queue, which immediately reports that success; the call is inlined in
the leaf case to keep the recursion structural). -/
def mkdirsAsyncSteps (fs : FS) : List (List String) → AsyncRun
  | [] => ⟨[(SUCCESS, none)], none, fs⟩
  | [leaf] =>
    match mkdirSyncFS fs leaf with
    | .ok fs' => ⟨[(SUCCESS, none)], none, fs'⟩
    | .error e => ⟨[], some e, fs⟩
  | p :: rest =>
    match accessSyncFS fs p with
    | .ok _ => mkdirsAsyncSteps fs rest
    | .error _ =>
      match mkdirSyncFS fs p with
      | .ok fs' => mkdirsAsyncSteps fs' rest
      | .error e => ⟨[], some e, fs⟩

/-- Source static `mkdirs({src, onCreate})` in the asynchronous
branch: a queue of fewer than two entries degenerates to one plain
native `mkdir` (whose failure likewise drops the callback), otherwise
the serialized `next()` chain runs. -/
def mkdirs_async (fs : FS) (src : List String) : AsyncRun :=
  let queue := splitPaths src
  if queue.length < 2 then
    match mkdirSyncFS fs (queue.headD []) with
    | .ok fs' => ⟨[(SUCCESS, none)], none, fs'⟩
    | .error e => ⟨[], some e, fs⟩
  else mkdirsAsyncSteps fs queue

/-- Source static `removeFileOrDir({src, mode, sync: true})`:
`accessSync(src, R_OK | W_OK)` first (modelled as an existence check),
then `rmdirSync` when `mode === DIR`, else `unlinkSync`; a caught
exception yields `ERROR`.  Result: (code, filesystem after). -/
def removeFileOrDir_sync (fs : FS) (mode : Nat) (src : List String) :
    Nat × FS :=
  match accessSyncFS fs src with
  | .error _ => (ERROR, fs)
  | .ok _ =>
    match (if mode = DIR then rmdirSyncFS fs src else unlinkSyncFS fs src) with
    | .ok fs' => (SUCCESS, fs')
    | .error _ => (ERROR, fs)

/-- Source static `rimraf` synchronous `next()` closure over the entry
`queue` (entries joined under `src`): an empty queue removes the
now-empty directory `src` itself; otherwise each entry is stat'ed
(failure aborts with `ERROR`), a directory entry recurses through
`recur` (the enclosing `rimraf` at the next fuel), a file entry is
unlinked, and a non-`ERROR` step continues with the rest. -/
def rimrafNextSync (recur : FS → List String → Nat × FS) :
    FS → List String → List (List String) → Nat × FS
  | fs, src, [] => removeFileOrDir_sync fs DIR src
  | fs, src, p :: rest =>
    match statSyncFS fs p with
    | .error _ => (ERROR, fs)
    | .ok .dir =>
      let r := recur fs p
      if r.1 ≠ ERROR then rimrafNextSync recur r.2 src rest else r
    | .ok .file =>
      let r := removeFileOrDir_sync fs FILE p
      if r.1 ≠ ERROR then rimrafNextSync recur r.2 src rest else r

/-- Source static `rimraf({src, sync: true})`: list the directory
(failure yields `ERROR`), then walk the entries with the `next()`
closure.  Recursion into subdirectories is bounded by `fuel`
(structurally decreasing; any fuel at least the tree depth evaluates
the source's recursion exactly, and fuel exhaustion yields `ERROR`,
which never occurs on the concrete inputs below). -/
def rimraf_sync : Nat → FS → List String → Nat × FS
  | 0, fs, _ => (ERROR, fs)
  | fuel + 1, fs, src =>
    match readdirSyncFS fs src with
    | .error _ => (ERROR, fs)
    | .ok names =>
      rimrafNextSync (rimraf_sync fuel) fs src (names.map (fun n => src ++ [n]))

/-- Source static `rimraf` asynchronous `next()` chain: same traversal
as the synchronous one (every error path here does pass `onRemove`, so
the outcome is the final (code, filesystem) pair delivered to the
callback); a failing inner step reports `ERROR`. -/
def rimrafNextAsync (recur : FS → List String → Nat × FS) :
    FS → List String → List (List String) → Nat × FS
  | fs, src, [] => removeFileOrDir_sync fs DIR src
  | fs, src, p :: rest =>
    match statSyncFS fs p with
    | .error _ => (ERROR, fs)
    | .ok .dir =>
      let r := recur fs p
      if r.1 = SUCCESS then rimrafNextAsync recur r.2 src rest else (ERROR, r.2)
    | .ok .file =>
      let r := removeFileOrDir_sync fs FILE p
      if r.1 = SUCCESS then rimrafNextAsync recur r.2 src rest else (ERROR, r.2)

/-- Source static `rimraf({src, onRemove})` in the asynchronous
branch: after listing the directory, the source dispatches
`queue.length === 0 ? handleSuccess(null, onRemove) : next()` — so for
an empty directory it reports `SUCCESS` immediately WITHOUT removing
the directory itself (unlike the synchronous branch, whose empty-queue
`next()` removes it). -/
def rimraf_async : Nat → FS → List String → Nat × FS
  | 0, fs, _ => (ERROR, fs)
  | fuel + 1, fs, src =>
    match readdirSyncFS fs src with
    | .error _ => (ERROR, fs)
    | .ok names =>
      if names.isEmpty then (SUCCESS, fs)
      else rimrafNextAsync (rimraf_async fuel) fs src
        (names.map (fun n => src ++ [n]))

/-- Result value of a synchronous, callback-less derived check:
either a status code or a raw JavaScript boolean. -/
inductive SyncRet where
  | code (n : Nat)
  | bool (b : Bool)
deriving Repr, DecidableEq

/-- Source `isFile()` with no callback: `stats = File.stat(sync)`;
when stat succeeds the RAW BOOLEAN `stats.isFile()` is returned
(`stats !== ERROR` holds for every stats object); when stat fails the
`ERROR` code is returned with the cause in `EX`.  Result:
(value, EX delta). -/
def isFile_sync (fs : FS) (p : List String) : SyncRet × Option JsError :=
  match statSyncFS fs p with
  | .ok t => (.bool (decide (t = Entity.file)), none)
  | .error e => (.code ERROR, some e)

/-- Source `isFile(onAccess)`: on stat success the callback fires with
`(SUCCESS)` for a file and `(ERROR, TypeError('NotFileException'))`
otherwise; a stat failure is forwarded.  Result: the single
(code, cause) callback invocation. -/
def isFile_async (fs : FS) (p : List String) : Nat × Option JsError :=
  match statSyncFS fs p with
  | .ok t =>
    if t = Entity.file then (SUCCESS, none)
    else (ERROR, some (.typeError "NotFileException"))
  | .error e => (ERROR, some e)

/-- Source `isDir()` with no callback: as `isFile()` with
`stats.isDirectory()`. -/
def isDir_sync (fs : FS) (p : List String) : SyncRet × Option JsError :=
  match statSyncFS fs p with
  | .ok t => (.bool (decide (t = Entity.dir)), none)
  | .error e => (.code ERROR, some e)

/-- Source `isDir(onAccess)`: as `isFile(onAccess)` with
`TypeError('NotDirectoryException')`. -/
def isDir_async (fs : FS) (p : List String) : Nat × Option JsError :=
  match statSyncFS fs p with
  | .ok t =>
    if t = Entity.dir then (SUCCESS, none)
    else (ERROR, some (.typeError "NotDirectoryException"))
  | .error e => (ERROR, some e)

end File

/-- Module-scope bindings of src/lib/file.js (imports, module
constants, classes) together with the JavaScript globals visible
there.  Neither `onRead` nor `onCreate` is among them. -/
def moduleScopeNames : List String :=
  ["execFile", "execFileSync",
   "access", "accessSync", "appendFile", "appendFileSync", "close",
   "closeSync", "chmod", "chmodSync", "constants", "createReadStream",
   "fdatasync", "fdatasyncSync", "fstat", "fstatSync", "fsync",
   "fsyncSync", "ftruncate", "ftruncateSync", "futimes", "futimesSync",
   "mkdir", "mkdirSync", "mkdtemp", "mkdtempSync", "open", "openSync",
   "read", "readSync", "readdir", "readdirSync", "readFile",
   "readFileSync", "realpath", "realpathSync", "rename", "renameSync",
   "rmdir", "rmdirSync", "statSync", "stat", "symlink", "symlinkSync",
   "truncate", "truncateSync", "unlink", "unlinkSync", "utimes",
   "utimesSync", "watch", "unwatch", "write", "writeSync",
   "writeFileSync",
   "basename", "dirname", "extname", "isAbsolute", "join", "normalize",
   "parse", "resolve", "sep",
   "EventEmitter", "homedir", "tmpdir", "util", "ByteBuffer",
   "InputStream",
   "IS_WIN", "READ", "READ_WRITE", "READ_SYNC", "READ_WRITE_SYNC",
   "WRITE", "WRITE_EXCLUSIVE", "WRITE_CREATE", "WRITE_CREATE_EXCLUSIVE",
   "APPEND", "APPEND_EXCLUSIVE", "APPEND_READ", "APPEND_READ_EXCLUSIVE",
   "SUCCESS", "ERROR", "FILE", "DIR",
   "handleError", "handleSuccess", "EX",
   "FileInputStream", "FilenameFilter", "File",
   "process", "console", "Math", "Date", "Buffer", "Uint8Array",
   "ReferenceError", "TypeError", "RangeError", "Error", "isNaN",
   "undefined", "JSON", "Promise", "Object", "Array", "String",
   "Number", "Boolean"]

/-- Locals in scope inside the body of static `writeFd` (its
destructured parameters and inner declarations). -/
def writeFdLocalNames : List String :=
  ["src", "buffer", "offset", "length", "position", "encoding",
   "onWrite", "sync", "isString", "data", "code", "ex"]

/-- Locals in scope inside the body of static `writeFile`. -/
def writeFileLocalNames : List String :=
  ["src", "buffer", "encoding", "mode", "flag", "onWrite", "sync",
   "code", "ex"]

/-- Locals in scope inside the body of static `execFile`. -/
def execFileLocalNames : List String :=
  ["src", "args", "options", "onAccess", "sync", "stdout", "code", "ex"]

/-- Strict-mode identifier resolution: a name resolves in the local
scope or the module scope, otherwise evaluating it throws
`ReferenceError: <name> is not defined`. -/
def lookupIdent (locals : List String) (n : String) : Except JsError Unit :=
  if n ∈ locals ∨ n ∈ moduleScopeNames then .ok ()
  else .error (.referenceError (n ++ " is not defined"))

/-- Outcome of entering a primitive with `src = null`: either an
exception escapes the call, or the violation is reported through the
Result Convention (callback invocations plus `EX` delta). -/
inductive NullSrcOutcome where
  | thrown (e : JsError)
  | reported (calls : List (Nat × Option JsError)) (ex : Option JsError)
deriving Repr, DecidableEq

namespace File

/-- Source static `writeFd` entered with `src = null`: the guard line
is `handleError(new ReferenceError('SourceNotFoundException'),
onRead)`; evaluating the argument `onRead` resolves the identifier
first, and only if that succeeds would `handleError` run. -/
def writeFd_nullSrc : NullSrcOutcome :=
  match lookupIdent writeFdLocalNames "onRead" with
  | .error e => .thrown e
  | .ok _ => .reported [] (some (.referenceError "SourceNotFoundException"))

/-- Source static `writeFile` entered with `src = null`: its guard
line also names `onRead`. -/
def writeFile_nullSrc : NullSrcOutcome :=
  match lookupIdent writeFileLocalNames "onRead" with
  | .error e => .thrown e
  | .ok _ => .reported [] (some (.referenceError "SourceNotFoundException"))

/-- Source static `execFile` entered with `src = null`: its guard line
names `onCreate`. -/
def execFile_nullSrc : NullSrcOutcome :=
  match lookupIdent execFileLocalNames "onCreate" with
  | .error e => .thrown e
  | .ok _ => .reported [] (some (.referenceError "SourceNotFoundException"))

end File

end Hjs

namespace Hjs

theorem existsFS_cons {fs : FS} {p : List String} (e : List String × Entity)
    (h : existsFS fs p = true) : existsFS (e :: fs) p = true := by
  unfold existsFS lookupFS at h ⊢
  rw [List.find?_cons]
  split
  · simp
  · exact h

theorem existsFS_self (fs : FS) (p : List String) (k : Entity) :
    existsFS ((p, k) :: fs) p = true := by
  simp [existsFS, lookupFS, List.find?_cons]

theorem accessSyncFS_error {fs : FS} {p : List String} {e : JsError}
    (h : accessSyncFS fs p = .error e) : existsFS fs p = false := by
  unfold accessSyncFS at h
  split at h <;> simp_all

theorem mkdirsSyncSteps_last_exists :
    ∀ (queue : List (List String)) (fs : FS) (leaf : List String),
      queue.getLast? = some leaf → existsFS fs leaf = true →
      (File.mkdirsSyncSteps fs queue).2 = some (.eexist leaf)
  | [], _, _, hlast, _ => by simp at hlast
  | [p], fs, leaf, hlast, hex => by
    simp at hlast
    subst hlast
    simp [File.mkdirsSyncSteps, mkdirSyncFS, hex]
  | p :: q :: rest, fs, leaf, hlast, hex => by
    rw [List.getLast?_cons_cons] at hlast
    show (File.mkdirsSyncSteps fs (p :: q :: rest)).2 = _
    unfold File.mkdirsSyncSteps
    cases hacc : accessSyncFS fs p with
    | ok u => exact mkdirsSyncSteps_last_exists (q :: rest) fs leaf hlast hex
    | error e =>
      have hne : existsFS fs p = false := accessSyncFS_error hacc
      simp only [mkdirSyncFS, hne, Bool.false_eq_true, if_false]
      exact mkdirsSyncSteps_last_exists (q :: rest) ((p, .dir) :: fs) leaf hlast
        (existsFS_cons _ hex)

theorem mkdirsSyncSteps_ancestors_exist :
    ∀ (queue : List (List String)) (fs : FS) (leaf : List String),
      (∀ p ∈ queue.dropLast, existsFS fs p = true) →
      queue.getLast? = some leaf → existsFS fs leaf = false →
      File.mkdirsSyncSteps fs queue = ((leaf, .dir) :: fs, none)
  | [], _, _, _, hlast, _ => by simp at hlast
  | [p], fs, leaf, _, hlast, hne => by
    simp at hlast
    subst hlast
    simp [File.mkdirsSyncSteps, mkdirSyncFS, hne]
  | p :: q :: rest, fs, leaf, hanc, hlast, hne => by
    rw [List.getLast?_cons_cons] at hlast
    have hp : existsFS fs p = true := by
      apply hanc
      simp
    unfold File.mkdirsSyncSteps
    simp only [accessSyncFS, hp, if_true]
    exact mkdirsSyncSteps_ancestors_exist (q :: rest) fs leaf
      (fun r hr => hanc r (by simp [List.dropLast_cons₂]; exact Or.inr hr))
      hlast hne

theorem mkdirsSyncSteps_success_exists :
    ∀ (queue : List (List String)) (fs fs' : FS) (leaf : List String),
      File.mkdirsSyncSteps fs queue = (fs', none) →
      queue.getLast? = some leaf → existsFS fs' leaf = true
  | [], _, _, _, _, hlast => by simp at hlast
  | [p], fs, fs', leaf, hrun, hlast => by
    simp at hlast
    subst hlast
    unfold File.mkdirsSyncSteps at hrun
    cases hmk : mkdirSyncFS fs p with
    | ok fs2 =>
      rw [hmk] at hrun
      have h2 : fs' = fs2 := by
        cases hrun
        rfl
      subst h2
      unfold mkdirSyncFS at hmk
      split at hmk
      · cases hmk
      · cases hmk
        exact existsFS_self fs p .dir
    | error e =>
      rw [hmk] at hrun
      cases hrun
  | p :: q :: rest, fs, fs', leaf, hrun, hlast => by
    rw [List.getLast?_cons_cons] at hlast
    unfold File.mkdirsSyncSteps at hrun
    cases hacc : accessSyncFS fs p with
    | ok u =>
      rw [hacc] at hrun
      exact mkdirsSyncSteps_success_exists (q :: rest) fs fs' leaf hrun hlast
    | error e =>
      rw [hacc] at hrun
      cases hmk : mkdirSyncFS fs p with
      | ok fs2 =>
        rw [hmk] at hrun
        exact mkdirsSyncSteps_success_exists (q :: rest) fs2 fs' leaf hrun hlast
      | error e2 =>
        rw [hmk] at hrun
        cases hrun

theorem splitPaths_concat (src : List String) (h : src ≠ []) :
    splitPaths src =
      (List.range (src.length - 1)).map (fun i => src.take (i + 1)) ++ [src] := by
  obtain ⟨m, hm⟩ : ∃ m, src.length = m + 1 := by
    cases hsrc : src with
    | nil => exact absurd hsrc h
    | cons a t => exact ⟨t.length, by simp⟩
  unfold splitPaths
  rw [hm, Nat.add_sub_cancel, List.range_succ, List.map_append,
    List.map_singleton]
  have ht : src.take (m + 1) = src := by
    rw [← hm]
    exact List.take_length src
  rw [ht]

theorem splitPaths_getLast (src : List String) (h : src ≠ []) :
    (splitPaths src).getLast? = some src := by
  rw [splitPaths_concat src h]
  exact List.getLast?_concat _

theorem splitPaths_dropLast (src : List String) (h : src ≠ []) :
    (splitPaths src).dropLast =
      (List.range (src.length - 1)).map (fun i => src.take (i + 1)) := by
  rw [splitPaths_concat src h]
  exact List.dropLast_concat

theorem splitPaths_length (src : List String) :
    (splitPaths src).length = src.length := by
  simp [splitPaths]

end Hjs

namespace Hjs

/-- C1: the claim says an asynchronous `mkdir`/`mkdirs` whose native
call fails still fires the caller-supplied callback exactly once with
`(ERROR, cause)`.  Evaluating the embedded source at a failing input
(the target directory already exists, so native `mkdir` fails with
EEXIST) shows the callback fires ZERO times — the error branches call
`handleError(err)` without `onCreate`, so the cause lands in the
process-wide `EX` slot instead — while the success path does fire the
callback exactly once with `(SUCCESS, null)`. -/
theorem C1_async_mkdir_failure_drops_callback :
    (File.mkdir_async [(["a"], .dir)] ["a"]).calls = [] ∧
    (File.mkdir_async [(["a"], .dir)] ["a"]).ex = some (.eexist ["a"]) ∧
    (File.mkdirs_async [(["a"], .dir), (["a", "b"], .dir)] ["a", "b"]).calls
      = [] ∧
    (File.mkdirs_async [(["a"], .dir), (["a", "b"], .dir)] ["a", "b"]).ex
      = some (.eexist ["a", "b"]) ∧
    (File.mkdir_async [] ["a"]).calls = [(SUCCESS, none)] ∧
    (File.mkdirs_async [] ["a", "b"]).calls = [(SUCCESS, none)] := by
  decide

/-- C3: the claim says `rimraf(d)` in both modes removes every entry
beneath `d` and then `d` itself, including the case where `d` is
already empty.  Evaluating the embedded source: the asynchronous
branch on an empty directory reports `SUCCESS` while leaving `d` in
place (its `queue.length === 0` dispatch skips the directory removal),
so a subsequent `exists(d)` still succeeds; the synchronous branch on
the same input does remove `d`, and both branches remove a directory
with nested content (k = 3 entities beneath `d`) entirely. -/
theorem C3_async_rimraf_skips_empty_dir :
    File.rimraf_async 2 [(["d"], .dir)] ["d"] = (SUCCESS, [(["d"], .dir)]) ∧
    existsFS [(["d"], .dir)] ["d"] = true ∧
    File.rimraf_sync 2 [(["d"], .dir)] ["d"] = (SUCCESS, []) ∧
    File.rimraf_async 3
      [(["d"], .dir), (["d", "f"], .file), (["d", "s"], .dir),
       (["d", "s", "g"], .file)] ["d"] = (SUCCESS, []) ∧
    File.rimraf_sync 3
      [(["d"], .dir), (["d", "f"], .file), (["d", "s"], .dir),
       (["d", "s", "g"], .file)] ["d"] = (SUCCESS, []) := by
  decide

/-- C4: the claim says a primitive invoked with `src = null` reports
the violation through the Result Convention before any native call,
with no exception escaping — in particular for `writeFd`, `writeFile`
and `execFile`.  Evaluating the embedded source: the `src === null`
guard of each of these three names an identifier that is not in any
enclosing scope (`onRead` in `writeFd`/`writeFile`, `onCreate` in
`execFile`), so entering the branch throws an uncaught
`ReferenceError` past the operation's boundary. -/
theorem C4_null_src_throws_reference_error :
    File.writeFd_nullSrc = .thrown (.referenceError "onRead is not defined") ∧
    File.writeFile_nullSrc
      = .thrown (.referenceError "onRead is not defined") ∧
    File.execFile_nullSrc
      = .thrown (.referenceError "onCreate is not defined") := by
  decide

/-- C5 counterexample: the claim says the SYNCHRONOUS callback-less
`isFile` reports a wrong-typed entity as an error with the distinct
cause `NotFileException`.  On a filesystem where `d` is a directory,
the embedded synchronous `isFile` returns the raw boolean `false` with
no failure cause recorded — the stat success on a wrong-typed entity
IS silently coerced to a boolean in the callback-less form. -/
theorem C5_sync_isFile_returns_raw_boolean :
    File.isFile_sync [(["d"], .dir)] ["d"] = (.bool false, none) ∧
    File.isDir_sync [(["f"], .file)] ["f"] = (.bool false, none) := by
  decide

/-- C6 counterexample: the claim says `position ≤ count ≤
buffer.length` holds after every operation, including an `open` whose
requested offset exceeds the file size.  Opening the 5-byte file
"hello" with `offset = 10, length = 3` yields `position = 10` and
`count = 5`, violating `position ≤ count`. -/
theorem C6_open_offset_beyond_size_breaks_invariant :
    (FileInputStream.openBlocking helloBytes 10 3).pos = 10 ∧
    (FileInputStream.openBlocking helloBytes 10 3).count = 5 ∧
    ¬((FileInputStream.openBlocking helloBytes 10 3).pos ≤
        (FileInputStream.openBlocking helloBytes 10 3).count) := by
  decide

/-- C2 counterexample: the claim says `mkdirs` on a path whose full
ancestor chain INCLUDING the leaf already exists reports success.  On
a filesystem where `/a` and `/a/b` both exist, the embedded
synchronous `mkdirs("/a/b")` returns the `ERROR` code (the leaf is
created unconditionally, and the native `mkdir` fails with EEXIST),
with the cause in the last-error slot. -/
theorem C2_mkdirs_existing_leaf_errors :
    (File.mkdirs_sync [(["a"], .dir), (["a", "b"], .dir)] ["a", "b"]).1
      = ERROR ∧
    (File.mkdirs_sync [(["a"], .dir), (["a", "b"], .dir)] ["a", "b"]).2.2
      = some (.eexist ["a", "b"]) := by
  decide

end Hjs

namespace Hjs

theorem mkdirs_sync_error_of_leaf_exists (fs : FS) (src : List String)
    (hex : existsFS fs src = true) : (File.mkdirs_sync fs src).1 = ERROR := by
  rcases src with _ | ⟨a, _ | ⟨b, t⟩⟩
  · simp [File.mkdirs_sync, splitPaths, mkdirSyncFS, hex]
  · simp [File.mkdirs_sync, splitPaths, mkdirSyncFS, hex]
  · have hlen : ¬(splitPaths (a :: b :: t)).length < 2 := by
      rw [splitPaths_length]
      simp
    have hlast := splitPaths_getLast (a :: b :: t) (by simp)
    have hsteps := mkdirsSyncSteps_last_exists (splitPaths (a :: b :: t)) fs
      (a :: b :: t) hlast hex
    simp only [File.mkdirs_sync]
    rw [if_neg hlen]
    rcases hq : File.mkdirsSyncSteps fs (splitPaths (a :: b :: t)) with ⟨fs2, oe⟩
    rw [hq] at hsteps
    simp only at hsteps
    subst hsteps
    rfl

theorem mkdirs_sync_creates_leaf (fs : FS) (src : List String)
    (hne : src ≠ [])
    (hanc : ∀ i, i + 1 < src.length → existsFS fs (src.take (i + 1)) = true)
    (hmiss : existsFS fs src = false) :
    File.mkdirs_sync fs src = (SUCCESS, (src, .dir) :: fs, none) := by
  rcases src with _ | ⟨a, _ | ⟨b, t⟩⟩
  · exact absurd rfl hne
  · simp [File.mkdirs_sync, splitPaths, mkdirSyncFS, hmiss]
  · have hlen : ¬(splitPaths (a :: b :: t)).length < 2 := by
      rw [splitPaths_length]
      simp
    have hdl : ∀ p ∈ (splitPaths (a :: b :: t)).dropLast,
        existsFS fs p = true := by
      intro p hp
      rw [splitPaths_dropLast _ (by simp)] at hp
      simp only [List.mem_map, List.mem_range] at hp
      obtain ⟨i, hi, rfl⟩ := hp
      refine hanc i ?_
      simp only [List.length_cons] at hi ⊢
      omega
    have hsteps := mkdirsSyncSteps_ancestors_exist (splitPaths (a :: b :: t))
      fs (a :: b :: t) hdl (splitPaths_getLast _ (by simp)) hmiss
    simp only [File.mkdirs_sync]
    rw [if_neg hlen, hsteps]

theorem mkdirs_sync_success_leaf_exists (fs : FS) (src : List String)
    (hne : src ≠ []) (hsucc : (File.mkdirs_sync fs src).1 = SUCCESS) :
    existsFS (File.mkdirs_sync fs src).2.1 src = true := by
  rcases src with _ | ⟨a, _ | ⟨b, t⟩⟩
  · exact absurd rfl hne
  · by_cases hex : existsFS fs [a] = true
    · exact absurd hsucc (by simp [File.mkdirs_sync, splitPaths, mkdirSyncFS,
        hex, ERROR, SUCCESS])
    · simp only [Bool.not_eq_true] at hex
      simp [File.mkdirs_sync, splitPaths, mkdirSyncFS, hex, existsFS_self]
  · have hlen : ¬(splitPaths (a :: b :: t)).length < 2 := by
      rw [splitPaths_length]
      simp
    have hlast := splitPaths_getLast (a :: b :: t) (by simp)
    simp only [File.mkdirs_sync] at hsucc ⊢
    rw [if_neg hlen] at hsucc ⊢
    rcases hq : File.mkdirsSyncSteps fs (splitPaths (a :: b :: t)) with ⟨fs2, oe⟩
    rw [hq] at hsucc
    cases oe with
    | none =>
      exact mkdirsSyncSteps_success_exists (splitPaths (a :: b :: t)) fs fs2
        (a :: b :: t) hq hlast
    | some e => exact absurd hsucc (by simp [ERROR, SUCCESS])

/-- C2 (amended): `mkdirs` creates the leaf unconditionally, so it
succeeds (creating exactly the leaf) when every proper ancestor exists
but the leaf does not, and reports ERROR (EEXIST at the leaf) when the
leaf itself already exists — in particular a second `mkdirs` call on a
path just created by a first reports ERROR, not success. -/
theorem C2_mkdirs_leaf_must_be_missing :
    (∀ (fs : FS) (src : List String), existsFS fs src = true →
      (File.mkdirs_sync fs src).1 = ERROR) ∧
    (∀ (fs : FS) (src : List String), src ≠ [] →
      (∀ i, i + 1 < src.length → existsFS fs (src.take (i + 1)) = true) →
      existsFS fs src = false →
      File.mkdirs_sync fs src = (SUCCESS, (src, .dir) :: fs, none)) ∧
    (∀ (fs : FS) (src : List String), src ≠ [] →
      (File.mkdirs_sync fs src).1 = SUCCESS →
      (File.mkdirs_sync (File.mkdirs_sync fs src).2.1 src).1 = ERROR) := by
  refine ⟨mkdirs_sync_error_of_leaf_exists, mkdirs_sync_creates_leaf, ?_⟩
  intro fs src hne hsucc
  exact mkdirs_sync_error_of_leaf_exists _ _
    (mkdirs_sync_success_leaf_exists fs src hne hsucc)

/-- C2 witness: concrete instantiation of the amended theorem on
`/a/b` — creation succeeds when only `/a` exists, and the second call
on the same path reports ERROR. -/
theorem C2_mkdirs_leaf_must_be_missing_witness :
    (File.mkdirs_sync [(["a"], .dir), (["a", "b"], .dir)] ["a", "b"]).1
      = ERROR ∧
    File.mkdirs_sync [(["a"], .dir)] ["a", "b"]
      = (SUCCESS, (["a", "b"], .dir) :: [(["a"], .dir)], none) ∧
    (File.mkdirs_sync
      (File.mkdirs_sync [(["a"], .dir)] ["a", "b"]).2.1 ["a", "b"]).1
      = ERROR := by
  refine ⟨C2_mkdirs_leaf_must_be_missing.1 _ _ (by decide),
    C2_mkdirs_leaf_must_be_missing.2.1 _ _ (by decide) ?_ (by decide),
    C2_mkdirs_leaf_must_be_missing.2.2 _ _ (by decide) (by decide)⟩
  intro i hi
  have h0 : i = 0 := by
    simp only [List.length_cons, List.length_nil] at hi
    omega
  subst h0
  decide

end Hjs

namespace Hjs

/-- C5 (amended): only the ASYNCHRONOUS callback form of
`isFile`/`isDir` reports a wrong-typed entity as an error with the
distinct causes `NotFileException`/`NotDirectoryException`; the
synchronous callback-less form returns the raw boolean from the stat
result (`false` for the wrong type) with no failure cause recorded. -/
theorem C5_wrong_type_async_error_sync_boolean :
    ∀ (fs : FS) (p : List String),
      (lookupFS fs p = some .dir →
        File.isFile_async fs p
          = (ERROR, some (.typeError "NotFileException")) ∧
        File.isFile_sync fs p = (.bool false, none)) ∧
      (lookupFS fs p = some .file →
        File.isDir_async fs p
          = (ERROR, some (.typeError "NotDirectoryException")) ∧
        File.isDir_sync fs p = (.bool false, none)) := by
  intro fs p
  constructor
  · intro h
    constructor
    · simp [File.isFile_async, statSyncFS, h]
    · simp [File.isFile_sync, statSyncFS, h]
  · intro h
    constructor
    · simp [File.isDir_async, statSyncFS, h]
    · simp [File.isDir_sync, statSyncFS, h]

/-- C5 witness: instantiation on a directory `/d` and a file `/f`. -/
theorem C5_wrong_type_async_error_sync_boolean_witness :
    File.isFile_async [(["d"], .dir)] ["d"]
      = (ERROR, some (.typeError "NotFileException")) ∧
    File.isDir_async [(["f"], .file)] ["f"]
      = (ERROR, some (.typeError "NotDirectoryException")) :=
  ⟨((C5_wrong_type_async_error_sync_boolean [(["d"], .dir)] ["d"]).1
      (by decide)).1,
   ((C5_wrong_type_async_error_sync_boolean [(["f"], .file)] ["f"]).2
      (by decide)).1⟩

/-- C7: after `open(offset, length)` on a file of `size` bytes, the
window is `pos = offset`, `count = min(offset + length, size)` when
`offset > 0` and `length > 0`, and `pos = 0`, `count = size`
otherwise; consequently, opening the 5-byte file "hello" with
`offset = 1, length = 3` exposes `available() = 3` and the first read
of 3 bytes returns the bytes of "ell". -/
theorem C7_open_window_and_hello_scenario :
    (∀ (bytes : List Nat) (offset length : Nat),
      (0 < offset ∧ 0 < length →
        (FileInputStream.openBlocking bytes offset length).pos = offset ∧
        (FileInputStream.openBlocking bytes offset length).count
          = min (offset + length) bytes.length) ∧
      (¬(0 < offset ∧ 0 < length) →
        (FileInputStream.openBlocking bytes offset length).pos = 0 ∧
        (FileInputStream.openBlocking bytes offset length).count
          = bytes.length)) ∧
    FileInputStream.available (FileInputStream.openBlocking helloBytes 1 3)
      = 3 ∧
    FileInputStream.readArr (FileInputStream.openBlocking helloBytes 1 3)
        3 0 3
      = .ok (3, ⟨some helloBytes, 4, 4, 0⟩, [101, 108, 108]) := by
  refine ⟨fun bytes offset length => ⟨fun h => ?_, fun h => ?_⟩,
    by decide, by rfl⟩
  · simp [FileInputStream.openBlocking, h]
  · simp [FileInputStream.openBlocking, h]

/-- C7 witness: the window equations instantiated at "hello" with
`offset = 1, length = 3` and at the full-file mode `offset = 0`. -/
theorem C7_open_window_and_hello_scenario_witness :
    (FileInputStream.openBlocking helloBytes 1 3).pos = 1 ∧
    (FileInputStream.openBlocking helloBytes 1 3).count
      = min (1 + 3) helloBytes.length ∧
    (FileInputStream.openBlocking helloBytes 0 0).pos = 0 ∧
    (FileInputStream.openBlocking helloBytes 0 0).count
      = helloBytes.length :=
  ⟨((C7_open_window_and_hello_scenario.1 helloBytes 1 3).1 (by decide)).1,
   ((C7_open_window_and_hello_scenario.1 helloBytes 1 3).1 (by decide)).2,
   ((C7_open_window_and_hello_scenario.1 helloBytes 0 0).2 (by decide)).1,
   ((C7_open_window_and_hello_scenario.1 helloBytes 0 0).2 (by decide)).2⟩

/-- C8: `close` on a handle whose tracked descriptor is the unopened
sentinel 0 — including a second close right after a successful one —
reports `FileNotOpenedException` through the Result Convention each
time (ERROR return plus last-error slot in the callback-less form, a
single `(ERROR, cause)` callback invocation in the callback form), and
a successful close resets the tracked descriptor to 0. -/
theorem C8_close_without_open_reports_not_opened :
    ∀ (native : Nat → Option JsError) (h : File) (ex : Option JsError),
      (h.fd = 0 →
        File.close_sync native h ex
          = (ERROR, h, some (.referenceError "FileNotOpenedException")) ∧
        File.close_async native h ex
          = (h, [(ERROR, some (.referenceError "FileNotOpenedException"))],
              ex)) ∧
      (h.fd ≠ 0 → native h.fd = none →
        File.close_sync native h ex = (SUCCESS, { h with fd := 0 }, ex) ∧
        File.close_sync native { h with fd := 0 } ex
          = (ERROR, { h with fd := 0 },
              some (.referenceError "FileNotOpenedException")) ∧
        File.close_async native { h with fd := 0 } ex
          = ({ h with fd := 0 },
              [(ERROR, some (.referenceError "FileNotOpenedException"))],
              ex)) := by
  intro native h ex
  constructor
  · intro h0
    constructor
    · simp [File.close_sync, h0]
    · simp [File.close_async, h0]
  · intro hne hnat
    refine ⟨?_, ?_, ?_⟩
    · simp [File.close_sync, File.closeFd_sync, hne, hnat, SUCCESS, ERROR]
    · simp [File.close_sync]
    · simp [File.close_async]

/-- C8 witness: a handle tracking descriptor 5 with a succeeding
native close — the first close succeeds and clears the descriptor, the
second (and the callback form) reports `FileNotOpenedException`. -/
theorem C8_close_without_open_reports_not_opened_witness :
    File.close_sync (fun _ => none) ⟨"p", 5, none, false⟩ none
      = (SUCCESS, ⟨"p", 0, none, false⟩, none) ∧
    File.close_sync (fun _ => none) ⟨"p", 0, none, false⟩ none
      = (ERROR, ⟨"p", 0, none, false⟩,
          some (.referenceError "FileNotOpenedException")) ∧
    File.close_async (fun _ => none) ⟨"p", 0, none, false⟩ none
      = (⟨"p", 0, none, false⟩,
          [(ERROR, some (.referenceError "FileNotOpenedException"))],
          none) :=
  (C8_close_without_open_reports_not_opened (fun _ => none)
    ⟨"p", 5, none, false⟩ none).2 (by decide) rfl

/-- C9: after `close` (which nulls `buf` and zeroes all cursors),
`available()` returns 0 and `skip(n)` returns 0 for every `n` — both
without raising the stream-closed error, since neither calls
`ensureOpen` — while `read` in either mode performs the open-stream
check and reports "Stream closed". -/
theorem C9_closed_stream_available_skip_read :
    ∀ (s : FileInputStream) (n : Int) (bLen off lenArg : Nat),
      FileInputStream.available (FileInputStream.close s) = 0 ∧
      FileInputStream.skip (FileInputStream.close s) n
        = (0, FileInputStream.close s) ∧
      FileInputStream.read1 (FileInputStream.close s)
        = .error (.referenceError "Stream closed") ∧
      FileInputStream.readArr (FileInputStream.close s) bLen off lenArg
        = .error (.referenceError "Stream closed") := by
  intro s n bLen off lenArg
  refine ⟨rfl, ?_, rfl, rfl⟩
  show FileInputStream.skip ⟨none, 0, 0, 0⟩ n = (0, ⟨none, 0, 0, 0⟩)
  simp only [FileInputStream.skip, Nat.cast_zero, zero_add, sub_zero]
  rcases lt_trichotomy n 0 with hlt | rfl | hgt
  · rw [if_neg (by omega : ¬(0 : Int) < n), if_pos hlt]
  · norm_num
  · rw [if_pos hgt, if_neg (by omega : ¬(0 : Int) < 0)]
    norm_num

/-- C10: a File handle immediately after `setup` with a non-null path
has `fd = 0` and `watcher = null` (so `isOpen()` and `isWatched()` are
both false), and its stored path is the normalized input, resolved
against the parent when one was supplied, fixed at construction. -/
theorem C10_setup_initial_state :
    ∀ (normalize : String → String) (resolveP : String → String → String)
      (p : String) (parent : ParentArg) (oud : Bool) (f : File),
      File.setup normalize resolveP (some p) parent oud = .ok f →
      f.fd = 0 ∧ f.watcher = none ∧ f.isOpen = false ∧
      f.isWatched = false ∧
      f.path = (match parent with
        | .null => normalize p
        | .file g => resolveP g.path (normalize p)
        | .str s => resolveP (normalize s) (normalize p)) := by
  intro nz rs p parent oud f hsetup
  cases parent with
  | null =>
    unfold File.setup at hsetup
    injection hsetup with hf
    subst hf
    exact ⟨rfl, rfl, rfl, rfl, rfl⟩
  | file g =>
    unfold File.setup at hsetup
    injection hsetup with hf
    subst hf
    exact ⟨rfl, rfl, rfl, rfl, rfl⟩
  | str s =>
    simp only [File.setup] at hsetup
    split at hsetup
    · cases hsetup
    · injection hsetup with hf
      subst hf
      exact ⟨rfl, rfl, rfl, rfl, rfl⟩

/-- C10 witness: setup at path "x" with no parent, the identity as
the external normalize and right projection as resolve. -/
theorem C10_setup_initial_state_witness :
    (⟨id "x", 0, none, false⟩ : File).fd = 0 ∧
    (⟨id "x", 0, none, false⟩ : File).watcher = none ∧
    File.isOpen ⟨id "x", 0, none, false⟩ = false ∧
    File.isWatched ⟨id "x", 0, none, false⟩ = false ∧
    (⟨id "x", 0, none, false⟩ : File).path = id "x" :=
  C10_setup_initial_state id (fun _ b => b) "x" .null false
    ⟨id "x", 0, none, false⟩ rfl

end Hjs

namespace Hjs

theorem inv_openBlocking (bytes : List Nat) (offset length : Nat)
    (h : offset ≤ bytes.length) :
    (FileInputStream.openBlocking bytes offset length).inv := by
  unfold FileInputStream.openBlocking FileInputStream.inv
  split
  · refine ⟨?_, ?_, ?_⟩
    · show offset ≤ min (offset + length) bytes.length
      exact le_min (Nat.le_add_right _ _) h
    · show 0 ≤ min (offset + length) bytes.length
      exact Nat.zero_le _
    · intro b hb
      injection hb with hb'
      subst hb'
      exact min_le_right _ _
  · refine ⟨Nat.zero_le _, Nat.zero_le _, ?_⟩
    intro b hb
    injection hb with hb'
    subst hb'
    exact le_refl _

theorem inv_skip (s : FileInputStream) (n : Int) (h : s.inv) :
    ((s.skip n).2).inv := by
  obtain ⟨sb, sp, sc, sm⟩ := s
  obtain ⟨h1, h2, h3⟩ := h
  have h1' : sp ≤ sc := h1
  unfold FileInputStream.skip
  simp only
  split
  next hc1 =>
    split
    next hc2 => exact ⟨h1, h2, h3⟩
    next hc2 =>
      refine ⟨?_, h2, fun b hb => h3 b hb⟩
      show sp + ((sc : Int) - (sp : Int)).toNat ≤ sc
      omega
  next hc1 =>
    split
    next hc2 => exact ⟨h1, h2, h3⟩
    next hc2 =>
      refine ⟨?_, h2, fun b hb => h3 b hb⟩
      show sp + n.toNat ≤ sc
      omega

theorem inv_read1 (s : FileInputStream) (r : Int) (s2 : FileInputStream)
    (h : s.inv) (hr : s.read1 = .ok (r, s2)) : s2.inv := by
  obtain ⟨sb, sp, sc, sm⟩ := s
  obtain ⟨h1, h2, h3⟩ := h
  cases sb with
  | none =>
    simp only [FileInputStream.read1] at hr
    exact Except.noConfusion hr
  | some buf =>
    simp only [FileInputStream.read1] at hr
    split at hr
    next hlt =>
      simp only [Except.ok.injEq, Prod.mk.injEq] at hr
      obtain ⟨hv, hs⟩ := hr
      subst hs
      refine ⟨?_, h2, fun b hb => h3 b hb⟩
      show sp + 1 ≤ sc
      omega
    next hlt =>
      simp only [Except.ok.injEq, Prod.mk.injEq] at hr
      obtain ⟨hv, hs⟩ := hr
      subst hs
      exact ⟨h1, h2, h3⟩

theorem inv_readArr (s : FileInputStream) (bLen off lenArg : Nat) (r : Int)
    (s2 : FileInputStream) (out : List Nat) (h : s.inv)
    (hr : s.readArr bLen off lenArg = .ok (r, s2, out)) : s2.inv := by
  obtain ⟨sb, sp, sc, sm⟩ := s
  obtain ⟨h1, h2, h3⟩ := h
  have h1' : sp ≤ sc := h1
  cases sb with
  | none =>
    simp only [FileInputStream.readArr] at hr
    exact Except.noConfusion hr
  | some buf =>
    simp only [FileInputStream.readArr] at hr
    generalize (if lenArg = 0 then bLen else lenArg) = len at hr
    by_cases hrange : (len : Int) > (bLen : Int) - (off : Int)
    · rw [if_pos hrange] at hr
      exact Except.noConfusion hr
    · rw [if_neg hrange] at hr
      by_cases heof : sc ≤ sp
      · rw [if_pos heof] at hr
        simp only [Except.ok.injEq, Prod.mk.injEq] at hr
        obtain ⟨hv, hs, ho⟩ := hr
        subst hs
        exact ⟨h1, h2, h3⟩
      · rw [if_neg heof] at hr
        by_cases hlt : sc < sp + len
        · simp only [if_pos hlt] at hr
          by_cases hz : sc - sp = 0
          · rw [if_pos hz] at hr
            simp only [Except.ok.injEq, Prod.mk.injEq] at hr
            obtain ⟨hv, hs, ho⟩ := hr
            subst hs
            exact ⟨h1, h2, h3⟩
          · rw [if_neg hz] at hr
            simp only [Except.ok.injEq, Prod.mk.injEq] at hr
            obtain ⟨hv, hs, ho⟩ := hr
            subst hs
            refine ⟨?_, h2, fun b hb => h3 b hb⟩
            show sp + (sc - sp) ≤ sc
            omega
        · simp only [if_neg hlt] at hr
          by_cases hz : len = 0
          · rw [if_pos hz] at hr
            simp only [Except.ok.injEq, Prod.mk.injEq] at hr
            obtain ⟨hv, hs, ho⟩ := hr
            subst hs
            exact ⟨h1, h2, h3⟩
          · rw [if_neg hz] at hr
            simp only [Except.ok.injEq, Prod.mk.injEq] at hr
            obtain ⟨hv, hs, ho⟩ := hr
            subst hs
            refine ⟨?_, h2, fun b hb => h3 b hb⟩
            show sp + len ≤ sc
            omega

theorem inv_mark_reset (s : FileInputStream) (h : s.inv) :
    (s.mark).inv ∧ (s.reset).inv := by
  obtain ⟨sb, sp, sc, sm⟩ := s
  obtain ⟨h1, h2, h3⟩ := h
  exact ⟨⟨h1, h1, fun b hb => h3 b hb⟩, ⟨h2, h2, fun b hb => h3 b hb⟩⟩

theorem read1_eof (s : FileInputStream) (b : List Nat)
    (hb : s.buf = some b) (hge : s.count ≤ s.pos) :
    s.read1 = .ok (-1, s) := by
  obtain ⟨sb, sp, sc, sm⟩ := s
  have hb' : sb = some b := hb
  have hge' : sc ≤ sp := hge
  subst hb'
  simp only [FileInputStream.read1]
  rw [if_neg (by omega : ¬sp < sc)]

theorem readArr_eof (s : FileInputStream) (b : List Nat)
    (bLen off lenArg : Nat) (hb : s.buf = some b) (hge : s.count ≤ s.pos) :
    s.readArr bLen off lenArg
        = .error (.rangeError "IndexOutOfBoundsException") ∨
      s.readArr bLen off lenArg = .ok (-1, s, []) := by
  obtain ⟨sb, sp, sc, sm⟩ := s
  have hb' : sb = some b := hb
  have hge' : sc ≤ sp := hge
  subst hb'
  simp only [FileInputStream.readArr]
  generalize (if lenArg = 0 then bLen else lenArg) = len
  by_cases hrange : (len : Int) > (bLen : Int) - (off : Int)
  · rw [if_pos hrange]
    exact Or.inl rfl
  · rw [if_neg hrange, if_pos hge']
    exact Or.inr rfl

/-- C6 (amended): the stream invariant `position ≤ count ≤
buffer.length` (together with `markPosition ≤ count`) holds after
`open` PROVIDED the requested offset does not exceed the file size,
and is preserved by every subsequent `read`, `skip`, `mark` and
`reset`; an `open` whose offset exceeds the size instead sets
`position = offset > count` (see the counterexample), but even then
any read attempted with `position ≥ count` yields end-of-data `-1`
(or the checked range violation) rather than an out-of-bounds buffer
access. -/
theorem C6_invariant_requires_offset_within_size :
    (∀ (bytes : List Nat) (offset length : Nat), offset ≤ bytes.length →
      (FileInputStream.openBlocking bytes offset length).inv) ∧
    (∀ (s : FileInputStream) (n : Int), s.inv → ((s.skip n).2).inv) ∧
    (∀ (s : FileInputStream) (r : Int) (s2 : FileInputStream), s.inv →
      s.read1 = .ok (r, s2) → s2.inv) ∧
    (∀ (s : FileInputStream) (bLen off lenArg : Nat) (r : Int)
      (s2 : FileInputStream) (out : List Nat), s.inv →
      s.readArr bLen off lenArg = .ok (r, s2, out) → s2.inv) ∧
    (∀ s : FileInputStream, s.inv → (s.mark).inv ∧ (s.reset).inv) ∧
    (∀ (s : FileInputStream) (b : List Nat), s.buf = some b →
      s.count ≤ s.pos → s.read1 = .ok (-1, s)) ∧
    (∀ (s : FileInputStream) (b : List Nat) (bLen off lenArg : Nat),
      s.buf = some b → s.count ≤ s.pos →
      s.readArr bLen off lenArg
          = .error (.rangeError "IndexOutOfBoundsException") ∨
        s.readArr bLen off lenArg = .ok (-1, s, [])) :=
  ⟨inv_openBlocking, inv_skip, inv_read1, inv_readArr, inv_mark_reset,
    read1_eof, readArr_eof⟩

/-- C6 witness: the invariant after opening "hello" with a window
inside the file, its preservation across a skip, and the end-of-data
read on the broken-window state produced by `offset = 10 > size`. -/
theorem C6_invariant_requires_offset_within_size_witness :
    (FileInputStream.openBlocking helloBytes 1 3).inv ∧
    (((FileInputStream.openBlocking helloBytes 1 3).skip 2).2).inv ∧
    FileInputStream.read1 (FileInputStream.openBlocking helloBytes 10 3)
      = .ok (-1, FileInputStream.openBlocking helloBytes 10 3) :=
  ⟨C6_invariant_requires_offset_within_size.1 helloBytes 1 3 (by decide),
   C6_invariant_requires_offset_within_size.2.1 _ 2
     (C6_invariant_requires_offset_within_size.1 helloBytes 1 3 (by decide)),
   C6_invariant_requires_offset_within_size.2.2.2.2.2.1 _ helloBytes rfl
     (by decide)⟩

end Hjs
